import Mathlib

/-!
Verification of the charticulator glyph-class module (`RectangleGlyph`):
a shallow embedding of the rectangle glyph class — its attribute schema,
default-state initializer, intrinsic-constraint emitter, alignment-guide
producer and handle producer — together with a spec-level model of the
constraint solver and orchestrator pieces that the module calls into.
Numbers are modelled as rationals (all constants in the module are exact).
-/

namespace Charticulator

/-- Modelled from the spec: the solver's constraint strength tiers
(`HARD` must hold exactly; soft tiers are relaxation priorities).
The solver module itself is external to the glyph-class file; only
`HARD` is used by the rectangle glyph. -/
inductive ConstraintStrength where
  | HARD
  | STRONG
  | MEDIUM
  | WEAK
  | WEAKER
  deriving DecidableEq, Repr

/-- Modelled from the spec: per-attribute variable strength used in the
attribute schema (`NONE` and `WEAKER` are the values the rectangle glyph
uses). -/
inductive VariableStrength where
  | NONE
  | WEAKER
  | WEAK
  | MEDIUM
  | STRONG
  deriving DecidableEq, Repr

/-- A solver variable reference: either an attribute of the glyph itself,
or an attribute of one of the glyph's child marks (`solver.attr` on
`state.marks[i].attributes`). -/
inductive VarRef where
  | glyphAttr (name : String)
  | markAttr (idx : Nat) (name : String)
  deriving DecidableEq, Repr

/-- A `(coefficient, variable)` term as passed to `solver.addLinear`. -/
structure Term where
  coeff : ℚ
  var : VarRef
  deriving DecidableEq, Repr

/-- One registered linear constraint: `Σ lhs = Σ rhs + bias` at the given
strength (the signature of `solver.addLinear(strength, bias, lhs, rhs)`). -/
structure LinearConstraint where
  strength : ConstraintStrength
  bias : ℚ
  lhs : List Term
  rhs : List Term
  deriving DecidableEq, Repr

/-- An attribute map: a keyed association of attribute names to numeric
values (property order preserved, assignment overwrites in place or
appends, as for a JS object). -/
abbrev AttrMap := List (String × ℚ)

/-- Assignment `attrs.n = v`: overwrite the existing entry in place, or
append a new entry. -/
def setAttr : AttrMap → String → ℚ → AttrMap
  | [], n, v => [(n, v)]
  | (k, w) :: rest, n, v =>
      if k = n then (n, v) :: rest else (k, w) :: setAttr rest n v

/-- Property read `attrs.n`, `none` when the property is absent. -/
def getAttr : AttrMap → String → Option ℚ
  | [], _ => none
  | (k, w) :: rest, n => if k = n then some w else getAttr rest n

/-- Numeric read of a property that is expected to be present. -/
def getA (m : AttrMap) (n : String) : ℚ :=
  (getAttr m n).getD 0

/-- The keys currently present in an attribute map. -/
def keysOf (m : AttrMap) : List String :=
  m.map Prod.fst

/-- State of one child mark: its own attribute map. -/
structure MarkState where
  attributes : AttrMap
  deriving DecidableEq, Repr

/-- State of one rectangle-glyph instance: its attribute map and the
ordered list of child-mark states. -/
structure RectangleGlyphState where
  attributes : AttrMap
  marks : List MarkState
  deriving DecidableEq, Repr

/-- Embeds `RectangleGlyph.attributeNames` from the source: the class schema's
attribute names, in declaration order. -/
def attributeNames : List String :=
  ["x1", "y1", "x2", "y2", "x", "y", "width", "height",
   "ix1", "iy1", "ix2", "iy2", "icx", "icy"]

/-- One entry of `RectangleGlyph.attributes` from the source (optional
fields are only present on `width` and `height`). -/
structure AttributeDescription where
  name : String
  type : String
  mode : String
  strength : VariableStrength
  category : Option String := none
  displayName : Option String := none
  defaultRange : Option (ℚ × ℚ) := none
  deriving DecidableEq, Repr

/-- Embeds `RectangleGlyph.attributes` from the source: the attribute schema. -/
def attributes : List AttributeDescription :=
  [{ name := "x1", type := "number", mode := "positional", strength := .NONE },
   { name := "y1", type := "number", mode := "positional", strength := .NONE },
   { name := "x2", type := "number", mode := "positional", strength := .NONE },
   { name := "y2", type := "number", mode := "positional", strength := .NONE },
   { name := "x", type := "number", mode := "positional", strength := .NONE },
   { name := "y", type := "number", mode := "positional", strength := .NONE },
   { name := "width", type := "number", mode := "intrinsic",
     strength := .WEAKER, category := some "dimensions",
     displayName := some "Width", defaultRange := some (30, 200) },
   { name := "height", type := "number", mode := "intrinsic",
     strength := .WEAKER, category := some "dimensions",
     displayName := some "Height", defaultRange := some (30, 200) },
   { name := "ix1", type := "number", mode := "positional", strength := .NONE },
   { name := "iy1", type := "number", mode := "positional", strength := .NONE },
   { name := "ix2", type := "number", mode := "positional", strength := .NONE },
   { name := "iy2", type := "number", mode := "positional", strength := .NONE },
   { name := "icx", type := "number", mode := "positional", strength := .NONE },
   { name := "icy", type := "number", mode := "positional", strength := .NONE }]

/-- Embeds `RectangleGlyph.initializeState` from the source: assigns center,
size, then the corner and intrinsic-frame coordinates derived from them,
onto the instance's attribute map. -/
def initializeState (attrs : AttrMap) : AttrMap :=
  let a := setAttr attrs "x" 0
  let a := setAttr a "y" 0
  let a := setAttr a "width" 60
  let a := setAttr a "height" 100
  let a := setAttr a "x1" (getA a "x" - getA a "width" / 2)
  let a := setAttr a "y1" (getA a "y" - getA a "height" / 2)
  let a := setAttr a "x2" (getA a "x" + getA a "width" / 2)
  let a := setAttr a "y2" (getA a "y" + getA a "height" / 2)
  let a := setAttr a "ix1" (-(getA a "width") / 2)
  let a := setAttr a "iy1" (-(getA a "height") / 2)
  let a := setAttr a "ix2" (getA a "width" / 2)
  let a := setAttr a "iy2" (getA a "height" / 2)
  let a := setAttr a "icx" 0
  let a := setAttr a "icy" 0
  a

theorem getAttr_setAttr (m : AttrMap) (k n : String) (v : ℚ) :
    getAttr (setAttr m k v) n = if k = n then some v else getAttr m n := by
  induction m with
  | nil => simp [setAttr, getAttr]
  | cons hd tl ih =>
      obtain ⟨k', w⟩ := hd
      by_cases hk : k' = k
      · subst hk
        by_cases hn : k' = n <;> simp [setAttr, getAttr, hn]
      · by_cases hn : k' = n
        · subst hn
          have hkn : ¬k = k' := fun h => hk h.symm
          simp [setAttr, getAttr, hk, hkn]
        · simp [setAttr, getAttr, hk, hn, ih]

/-- Embeds `RectangleGlyph.buildIntrinsicConstraints` from the source: the list
of `solver.addLinear` registrations, in call order.  The coupling
equations dereference `this.state.marks[0].attributes`, so the whole
operation is undefined (`none`) when the glyph owns no marks. -/
def buildIntrinsicConstraints (s : RectangleGlyphState) :
    Option (List LinearConstraint) :=
  match s.marks with
  | [] => none
  | _ :: _ => some
      [⟨.HARD, 0, [⟨1, .glyphAttr "x2"⟩, ⟨-1, .glyphAttr "x1"⟩],
        [⟨1, .glyphAttr "width"⟩]⟩,
       ⟨.HARD, 0, [⟨1, .glyphAttr "y2"⟩, ⟨-1, .glyphAttr "y1"⟩],
        [⟨1, .glyphAttr "height"⟩]⟩,
       ⟨.HARD, 0, [⟨1, .glyphAttr "ix2"⟩, ⟨-1, .glyphAttr "ix1"⟩],
        [⟨1, .glyphAttr "width"⟩]⟩,
       ⟨.HARD, 0, [⟨1, .glyphAttr "iy2"⟩, ⟨-1, .glyphAttr "iy1"⟩],
        [⟨1, .glyphAttr "height"⟩]⟩,
       ⟨.HARD, 0, [⟨1, .glyphAttr "ix1"⟩, ⟨1, .glyphAttr "ix2"⟩], []⟩,
       ⟨.HARD, 0, [⟨1, .glyphAttr "iy1"⟩, ⟨1, .glyphAttr "iy2"⟩], []⟩,
       ⟨.HARD, 0, [⟨1, .glyphAttr "icx"⟩], []⟩,
       ⟨.HARD, 0, [⟨1, .glyphAttr "icy"⟩], []⟩,
       ⟨.HARD, 0, [⟨1, .glyphAttr "x"⟩],
        [⟨1/2, .glyphAttr "x2"⟩, ⟨1/2, .glyphAttr "x1"⟩,
         ⟨1, .markAttr 0 "x"⟩]⟩,
       ⟨.HARD, 0, [⟨1, .glyphAttr "y"⟩],
        [⟨1/2, .glyphAttr "y2"⟩, ⟨1/2, .glyphAttr "y1"⟩,
         ⟨1, .markAttr 0 "y"⟩]⟩]

/-- One alignment guide (`SnappingGuides.Axis`); `attr` embeds the
source's `attribute` field (the attribute the guide tracks). -/
structure SnappingGuideAxis where
  type : String
  value : ℚ
  attr : String
  visible : Bool
  deriving DecidableEq, Repr

/-- Embeds `RectangleGlyph.getAlignmentGuides` from the source. -/
def getAlignmentGuides (s : RectangleGlyphState) : List SnappingGuideAxis :=
  let attrs := s.attributes
  [{ type := "x", value := getA attrs "ix1", attr := "ix1", visible := true },
   { type := "x", value := getA attrs "ix2", attr := "ix2", visible := true },
   { type := "x", value := getA attrs "icx", attr := "icx", visible := true },
   { type := "y", value := getA attrs "iy1", attr := "iy1", visible := true },
   { type := "y", value := getA attrs "iy2", attr := "iy2", visible := true },
   { type := "y", value := getA attrs "icy", attr := "icy", visible := true }]

/-- One entry of a handle's `actions` array; `attr` embeds the source's
`attribute` field (the attribute the action drives). -/
structure HandleAction where
  type : String
  attr : String
  deriving DecidableEq, Repr

/-- One line handle (`Handles.Line`); `span` is the source's
`inf = [-10000, 10000]` pair. -/
structure HandleLine where
  type : String
  axis : String
  actions : List HandleAction
  value : ℚ
  span : ℚ × ℚ
  deriving DecidableEq, Repr

/-- Embeds `RectangleGlyph.getHandles` from the source. -/
def getHandles (s : RectangleGlyphState) : List HandleLine :=
  let attrs := s.attributes
  let inf : ℚ × ℚ := (-10000, 10000)
  [{ type := "line", axis := "x",
     actions := [{ type := "attribute", attr := "ix1" }],
     value := getA attrs "ix1", span := inf },
   { type := "line", axis := "x",
     actions := [{ type := "attribute", attr := "ix2" }],
     value := getA attrs "ix2", span := inf },
   { type := "line", axis := "y",
     actions := [{ type := "attribute", attr := "iy1" }],
     value := getA attrs "iy1", span := inf },
   { type := "line", axis := "y",
     actions := [{ type := "attribute", attr := "iy2" }],
     value := getA attrs "iy2", span := inf }]

/-- Value of a term list under an assignment of the solver variables. -/
def termSum (a : VarRef → ℚ) (ts : List Term) : ℚ :=
  (ts.map fun t => t.coeff * a t.var).sum

/-- Modelled from the spec: `addLinear(strength, constant, lhs, rhs)`
registers `Σ lhs = Σ rhs + constant`; an assignment satisfies the
constraint when that equation holds. -/
def satisfiesC (a : VarRef → ℚ) (c : LinearConstraint) : Prop :=
  termSum a c.lhs = termSum a c.rhs + c.bias

instance (a : VarRef → ℚ) (c : LinearConstraint) : Decidable (satisfiesC a c) :=
  inferInstanceAs (Decidable (_ = _))

/-- An assignment satisfies a whole constraint list. -/
def satisfiesAll (a : VarRef → ℚ) (cs : List LinearConstraint) : Prop :=
  ∀ c ∈ cs, satisfiesC a c

instance (a : VarRef → ℚ) (cs : List LinearConstraint) :
    Decidable (satisfiesAll a cs) :=
  inferInstanceAs (Decidable (∀ c ∈ cs, satisfiesC a c))

/-- The variables mentioned by one constraint. -/
def constraintVars (c : LinearConstraint) : List VarRef :=
  (c.lhs ++ c.rhs).map Term.var

/-- All variables of a solve session's constraint list. -/
def sessionVars (cs : List LinearConstraint) : List VarRef :=
  (cs.map constraintVars).flatten

/-- The assignment a glyph state induces on solver variables: glyph
attributes read the glyph's map, mark attributes read the mark's map. -/
def stateAssignment (s : RectangleGlyphState) : VarRef → ℚ
  | .glyphAttr n => getA s.attributes n
  | .markAttr i n =>
      match s.marks.get? i with
      | some ms => getA ms.attributes n
      | none => 0

/-- Helper: the attribute values produced by `initializeState`, for any
starting attribute map. -/
theorem init_getAttr (attrs0 : AttrMap) :
    getAttr (initializeState attrs0) "x1" = some (-30) ∧
    getAttr (initializeState attrs0) "y1" = some (-50) ∧
    getAttr (initializeState attrs0) "x2" = some 30 ∧
    getAttr (initializeState attrs0) "y2" = some 50 ∧
    getAttr (initializeState attrs0) "x" = some 0 ∧
    getAttr (initializeState attrs0) "y" = some 0 ∧
    getAttr (initializeState attrs0) "width" = some 60 ∧
    getAttr (initializeState attrs0) "height" = some 100 ∧
    getAttr (initializeState attrs0) "ix1" = some (-30) ∧
    getAttr (initializeState attrs0) "iy1" = some (-50) ∧
    getAttr (initializeState attrs0) "ix2" = some 30 ∧
    getAttr (initializeState attrs0) "iy2" = some 50 ∧
    getAttr (initializeState attrs0) "icx" = some 0 ∧
    getAttr (initializeState attrs0) "icy" = some 0 := by
  simp [initializeState, getAttr_setAttr, getA]
  norm_num

/-- Claim C2: for every fresh rectangle-glyph instance, `initializeState`
sets `x=0, y=0, width=60, height=100` and derives
`x1=-30, x2=30, y1=-50, y2=50, ix1=-30, ix2=30, iy1=-50, iy2=50,
icx=0, icy=0`, leaving no declared attribute undefined. -/
theorem initializeState_default_values (attrs0 : AttrMap) :
    getAttr (initializeState attrs0) "x" = some 0 ∧
    getAttr (initializeState attrs0) "y" = some 0 ∧
    getAttr (initializeState attrs0) "width" = some 60 ∧
    getAttr (initializeState attrs0) "height" = some 100 ∧
    getAttr (initializeState attrs0) "x1" = some (-30) ∧
    getAttr (initializeState attrs0) "x2" = some 30 ∧
    getAttr (initializeState attrs0) "y1" = some (-50) ∧
    getAttr (initializeState attrs0) "y2" = some 50 ∧
    getAttr (initializeState attrs0) "ix1" = some (-30) ∧
    getAttr (initializeState attrs0) "ix2" = some 30 ∧
    getAttr (initializeState attrs0) "iy1" = some (-50) ∧
    getAttr (initializeState attrs0) "iy2" = some 50 ∧
    getAttr (initializeState attrs0) "icx" = some 0 ∧
    getAttr (initializeState attrs0) "icy" = some 0 ∧
    attributeNames.all
      (fun n => (getAttr (initializeState attrs0) n).isSome) = true := by
  simp [initializeState, getAttr_setAttr, getA, attributeNames]
  norm_num

/-- Claim C10: `buildIntrinsicConstraints` dereferences
`this.state.marks[0]`, so the operation fails exactly when the glyph's
marks list is empty: the error branch is unreachable iff there is at
least one child mark. -/
theorem buildIntrinsicConstraints_needs_mark (s : RectangleGlyphState) :
    buildIntrinsicConstraints s = none ↔ s.marks = [] := by
  cases h : s.marks <;> simp [buildIntrinsicConstraints, h]

/-- Claim C7: `getAlignmentGuides` returns exactly one guide per notable
coordinate — x-guides tagged `ix1`, `ix2`, `icx` and y-guides tagged
`iy1`, `iy2`, `icy` — and each guide's value equals the current value of
the attribute it is tagged with. -/
theorem getAlignmentGuides_exact (s : RectangleGlyphState) :
    (getAlignmentGuides s).map (fun g => (g.type, g.attr)) =
      [("x", "ix1"), ("x", "ix2"), ("x", "icx"),
       ("y", "iy1"), ("y", "iy2"), ("y", "icy")] ∧
    ∀ g ∈ getAlignmentGuides s,
      g.value = getA s.attributes g.attr ∧ g.visible = true := by
  refine ⟨by simp [getAlignmentGuides], ?_⟩
  intro g hg
  simp only [getAlignmentGuides, List.mem_cons, List.not_mem_nil, or_false] at hg
  rcases hg with h | h | h | h | h | h <;> subst h <;> exact ⟨rfl, rfl⟩

/-- Witness for C7 at a concrete initialized instance. -/
theorem getAlignmentGuides_exact_witness :
    ({ type := "x", value := -30, attr := "ix1", visible := true } :
        SnappingGuideAxis).value =
      getA (initializeState []) "ix1" := by
  have hx : getA (initializeState []) "ix1" = -30 := by
    simp [getA, initializeState, getAttr_setAttr]
    norm_num
  have h := (getAlignmentGuides_exact ⟨initializeState [], []⟩).2
    { type := "x", value := -30, attr := "ix1", visible := true }
    (by simp [getAlignmentGuides, hx])
  exact h.1

/-- Claim C8: `getHandles` returns exactly 4 line handles — two on axis
`x` bound to `ix1` and `ix2`, two on axis `y` bound to `iy1` and `iy2` —
each handle's value equals the current value of the attribute it
controls, and each span is the large finite range `[-10000, 10000]`. -/
theorem getHandles_exact (s : RectangleGlyphState) :
    (getHandles s).length = 4 ∧
    (getHandles s).map (fun h => (h.type, h.axis, h.actions.map HandleAction.attr)) =
      [("line", "x", ["ix1"]), ("line", "x", ["ix2"]),
       ("line", "y", ["iy1"]), ("line", "y", ["iy2"])] ∧
    ∀ h ∈ getHandles s,
      h.span = (-10000, 10000) ∧
      ∀ act ∈ h.actions,
        act.type = "attribute" ∧ h.value = getA s.attributes act.attr := by
  refine ⟨by simp [getHandles], by simp [getHandles], ?_⟩
  intro h hh
  simp only [getHandles, List.mem_cons, List.not_mem_nil, or_false] at hh
  rcases hh with h' | h' | h' | h' <;> subst h' <;>
    exact ⟨rfl, by intro act hact; simp only [List.mem_cons, List.not_mem_nil,
      or_false] at hact; subst hact; exact ⟨rfl, rfl⟩⟩

/-- Witness for C8 at a concrete initialized instance. -/
theorem getHandles_exact_witness :
    ({ type := "line", axis := "x",
       actions := [{ type := "attribute", attr := "ix1" }],
       value := -30, span := (-10000, 10000) } : HandleLine).value =
      getA (initializeState []) "ix1" := by
  have hx : getA (initializeState []) "ix1" = -30 := by
    simp [getA, initializeState, getAttr_setAttr]
    norm_num
  have h := (getHandles_exact ⟨initializeState [], []⟩).2.2
    { type := "line", axis := "x",
      actions := [{ type := "attribute", attr := "ix1" }],
      value := -30, span := (-10000, 10000) }
    (by simp [getHandles, hx])
  exact (h.2 { type := "attribute", attr := "ix1" } (by simp)).2

/-- Claim C1: for every initialized rectangle-glyph instance (one that
owns at least one mark), `buildIntrinsicConstraints` registers exactly
ten constraints, all at `HARD` strength with constant 0, and an
assignment satisfies them all iff it satisfies
`x2 - x1 = width`, `y2 - y1 = height`, `ix2 - ix1 = width`,
`iy2 - iy1 = height`, `ix1 + ix2 = 0`, `iy1 + iy2 = 0`, `icx = 0`,
`icy = 0`, `x = 0.5*x1 + 0.5*x2 + mark0.x` and
`y = 0.5*y1 + 0.5*y2 + mark0.y`. -/
theorem buildIntrinsicConstraints_exact (s : RectangleGlyphState)
    (hm : s.marks ≠ []) :
    ∃ cs, buildIntrinsicConstraints s = some cs ∧
      cs.length = 10 ∧
      (∀ c ∈ cs, c.strength = ConstraintStrength.HARD ∧ c.bias = 0) ∧
      ∀ a : VarRef → ℚ,
        satisfiesAll a cs ↔
          (a (.glyphAttr "x2") - a (.glyphAttr "x1") = a (.glyphAttr "width") ∧
           a (.glyphAttr "y2") - a (.glyphAttr "y1") = a (.glyphAttr "height") ∧
           a (.glyphAttr "ix2") - a (.glyphAttr "ix1") = a (.glyphAttr "width") ∧
           a (.glyphAttr "iy2") - a (.glyphAttr "iy1") = a (.glyphAttr "height") ∧
           a (.glyphAttr "ix1") + a (.glyphAttr "ix2") = 0 ∧
           a (.glyphAttr "iy1") + a (.glyphAttr "iy2") = 0 ∧
           a (.glyphAttr "icx") = 0 ∧
           a (.glyphAttr "icy") = 0 ∧
           a (.glyphAttr "x") = 1/2 * a (.glyphAttr "x1") +
             1/2 * a (.glyphAttr "x2") + a (.markAttr 0 "x") ∧
           a (.glyphAttr "y") = 1/2 * a (.glyphAttr "y1") +
             1/2 * a (.glyphAttr "y2") + a (.markAttr 0 "y")) := by
  obtain ⟨attrs, marks⟩ := s
  obtain ⟨m0, rest, hmk⟩ : ∃ m0 rest, marks = m0 :: rest := by
    cases marks with
    | nil => simp at hm
    | cons m0 rest => exact ⟨m0, rest, rfl⟩
  subst hmk
  refine ⟨_, rfl, rfl, ?_, ?_⟩
  · intro c hc
    simp only [List.mem_cons, List.not_mem_nil, or_false] at hc
    rcases hc with h | h | h | h | h | h | h | h | h | h <;> subst h <;>
      exact ⟨rfl, rfl⟩
  · intro a
    simp only [satisfiesAll, satisfiesC, termSum, List.forall_mem_cons,
      List.not_mem_nil, false_implies, implies_true, and_true, List.map_cons,
      List.map_nil, List.sum_cons, List.sum_nil]
    constructor
    · rintro ⟨h1, h2, h3, h4, h5, h6, h7, h8, h9, h10⟩
      refine ⟨?_, ?_, ?_, ?_, ?_, ?_, ?_, ?_, ?_, ?_⟩ <;> linarith
    · rintro ⟨h1, h2, h3, h4, h5, h6, h7, h8, h9, h10⟩
      refine ⟨?_, ?_, ?_, ?_, ?_, ?_, ?_, ?_, ?_, ?_⟩ <;> linarith

/-- Witness for C1 at a concrete one-mark instance. -/
theorem buildIntrinsicConstraints_exact_witness :
    ∃ cs,
      buildIntrinsicConstraints
          ⟨initializeState [], [⟨[("x", 0), ("y", 0)]⟩]⟩ = some cs ∧
      cs.length = 10 := by
  obtain ⟨cs, h1, h2, -⟩ :=
    buildIntrinsicConstraints_exact
      ⟨initializeState [], [⟨[("x", 0), ("y", 0)]⟩]⟩ (by simp)
  exact ⟨cs, h1, h2⟩

/-- Squared deviation of an assignment `out` from the seed `init` over
the variables `vs`. -/
def deviation (init out : VarRef → ℚ) (vs : List VarRef) : ℚ :=
  (vs.map fun v => (out v - init v) ^ 2).sum

theorem deviation_nonneg (init out : VarRef → ℚ) (vs : List VarRef) :
    0 ≤ deviation init out vs := by
  apply List.sum_nonneg
  intro x hx
  obtain ⟨v, -, rfl⟩ := List.mem_map.mp hx
  exact sq_nonneg _

theorem deviation_self (a : VarRef → ℚ) (vs : List VarRef) :
    deviation a a vs = 0 := by
  simp [deviation, sub_self]

/-- Modelled from the spec: the solver is not part of the glyph-class
file; per the spec, `solve()` computes values satisfying every hard
constraint exactly while the variables' initial values serve as anchors
(warm start), i.e. a solve result minimizes the squared deviation from
the seed assignment among all assignments satisfying the session's
constraints. -/
def IsSolveResult (cs : List LinearConstraint) (init out : VarRef → ℚ) : Prop :=
  satisfiesAll out cs ∧
  ∀ out', satisfiesAll out' cs →
    deviation init out (sessionVars cs) ≤ deviation init out' (sessionVars cs)

theorem sum_nonneg_all_zero {l : List ℚ} (hpos : ∀ x ∈ l, 0 ≤ x)
    (hz : l.sum = 0) : ∀ x ∈ l, x = 0 := by
  induction l with
  | nil => simp
  | cons hd tl ih =>
      have h1 : 0 ≤ hd := hpos hd (by simp)
      have h2 : 0 ≤ tl.sum :=
        List.sum_nonneg fun x hx => hpos x (by simp [hx])
      rw [List.sum_cons] at hz
      intro x hx
      rcases List.mem_cons.mp hx with rfl | hx'
      · linarith
      · exact ih (fun y hy => hpos y (by simp [hy])) (by linarith) x hx'

/-- Helper: a solve whose seed already satisfies every constraint leaves
every session variable unchanged. -/
theorem solve_fixes_satisfying_seed {cs : List LinearConstraint}
    {init out : VarRef → ℚ} (hinit : satisfiesAll init cs)
    (hout : IsSolveResult cs init out) :
    ∀ v ∈ sessionVars cs, out v = init v := by
  have hle := hout.2 init hinit
  rw [deviation_self] at hle
  have hz : deviation init out (sessionVars cs) = 0 :=
    le_antisymm hle (deviation_nonneg init out (sessionVars cs))
  intro v hv
  have hzero : (out v - init v) ^ 2 = 0 := by
    refine sum_nonneg_all_zero ?_ hz _ (List.mem_map_of_mem _ hv)
    intro x hx
    obtain ⟨w, -, rfl⟩ := List.mem_map.mp hx
    exact sq_nonneg _
  have := sq_eq_zero_iff.mp hzero
  linarith

/-- Helper: the assignment induced by an initialized glyph state whose
first mark sits at the origin satisfies every intrinsic constraint. -/
theorem default_assignment_satisfies (attrs0 : AttrMap) (m0 : MarkState)
    (rest : List MarkState) (cs : List LinearConstraint)
    (hx : getA m0.attributes "x" = 0) (hy : getA m0.attributes "y" = 0)
    (hcs : buildIntrinsicConstraints ⟨initializeState attrs0, m0 :: rest⟩ =
      some cs) :
    satisfiesAll (stateAssignment ⟨initializeState attrs0, m0 :: rest⟩) cs := by
  rw [buildIntrinsicConstraints] at hcs
  simp only [Option.some.injEq] at hcs
  subst hcs
  obtain ⟨h1, h2, h3, h4, h5, h6, h7, h8, h9, h10, h11, h12, h13, h14⟩ :=
    init_getAttr attrs0
  have hx' : (getAttr m0.attributes "x").getD 0 = 0 := hx
  have hy' : (getAttr m0.attributes "y").getD 0 = 0 := hy
  intro c hc
  simp only [List.mem_cons, List.not_mem_nil, or_false] at hc
  rcases hc with h | h | h | h | h | h | h | h | h | h <;> subst h <;>
    simp [satisfiesC, termSum, stateAssignment, getA, h1, h2, h3, h4, h5,
      h6, h7, h8, h9, h10, h11, h12, h13, h14, hx', hy'] <;> norm_num

/-- Claim C3: `initializeState` followed by building the instance's
intrinsic constraints and solving leaves every attribute value
unchanged — the default state satisfies all of the class's own HARD
constraints, so it is a fixed point of the solve (first mark at the
origin, solver modelled per spec §4.2). -/
theorem initializeState_fixed_point (attrs0 : AttrMap) (m0 : MarkState)
    (rest : List MarkState)
    (hx : getA m0.attributes "x" = 0) (hy : getA m0.attributes "y" = 0) :
    ∃ cs,
      buildIntrinsicConstraints ⟨initializeState attrs0, m0 :: rest⟩ =
        some cs ∧
      satisfiesAll (stateAssignment ⟨initializeState attrs0, m0 :: rest⟩) cs ∧
      ∀ out,
        IsSolveResult cs
          (stateAssignment ⟨initializeState attrs0, m0 :: rest⟩) out →
        ∀ v ∈ sessionVars cs,
          out v = stateAssignment ⟨initializeState attrs0, m0 :: rest⟩ v := by
  have hsat := default_assignment_satisfies attrs0 m0 rest _ hx hy rfl
  exact ⟨_, rfl, hsat, fun out hout => solve_fixes_satisfying_seed hsat hout⟩

/-- Witness for C3 at a concrete instance with one origin mark. -/
theorem initializeState_fixed_point_witness :
    ∃ cs,
      buildIntrinsicConstraints
          ⟨initializeState [], [⟨[("x", 0), ("y", 0)]⟩]⟩ = some cs ∧
      satisfiesAll
        (stateAssignment ⟨initializeState [], [⟨[("x", 0), ("y", 0)]⟩]⟩)
        cs := by
  obtain ⟨cs, hcs, hsat, -⟩ :=
    initializeState_fixed_point [] ⟨[("x", 0), ("y", 0)]⟩ []
      (by simp [getA, getAttr]) (by simp [getA, getAttr])
  exact ⟨cs, hcs, hsat⟩

/-- Claim C4: solving is idempotent — if `a` is the result of a solve of
the instance's intrinsic constraints, an immediate second solve (seeded
at `a`, no intervening mutation) reproduces `a` on every session
variable, with no history of previous solves needed. -/
theorem solve_idempotent (s : RectangleGlyphState)
    (cs : List LinearConstraint) (prev a out : VarRef → ℚ)
    (_hcs : buildIntrinsicConstraints s = some cs)
    (h1 : IsSolveResult cs prev a) (h2 : IsSolveResult cs a out) :
    ∀ v ∈ sessionVars cs, out v = a v :=
  solve_fixes_satisfying_seed h1.1 h2

/-- Witness for C4 at a concrete instance and a concrete solve result. -/
theorem solve_idempotent_witness :
    ∃ cs,
      buildIntrinsicConstraints
          ⟨initializeState [], [⟨[("x", 0), ("y", 0)]⟩]⟩ = some cs ∧
      ∀ v ∈ sessionVars cs,
        stateAssignment ⟨initializeState [], [⟨[("x", 0), ("y", 0)]⟩]⟩ v =
        stateAssignment ⟨initializeState [], [⟨[("x", 0), ("y", 0)]⟩]⟩ v := by
  have hsat :=
    default_assignment_satisfies [] ⟨[("x", 0), ("y", 0)]⟩ [] _
      (by simp [getA, getAttr]) (by simp [getA, getAttr]) rfl
  have hres :
      IsSolveResult _
        (stateAssignment ⟨initializeState [], [⟨[("x", 0), ("y", 0)]⟩]⟩)
        (stateAssignment ⟨initializeState [], [⟨[("x", 0), ("y", 0)]⟩]⟩) :=
    ⟨hsat, fun out' h' => by
      rw [deviation_self]
      exact deviation_nonneg _ _ _⟩
  exact ⟨_, rfl,
    solve_idempotent ⟨initializeState [], [⟨[("x", 0), ("y", 0)]⟩]⟩ _
      _ _ _ rfl hres hres⟩

/-- Modelled from the spec: the orchestrator's result-distribution step.
On a successful solve it copies every schema attribute's solved value
back into the instance's attribute map; on `Infeasible` (no result) it
surfaces the failure without mutating the map. -/
def distributeResult (m : AttrMap) (res : Option (VarRef → ℚ)) : AttrMap :=
  match res with
  | none => m
  | some a =>
      attributeNames.foldl (fun acc n => setAttr acc n (a (.glyphAttr n))) m

/-- Claim C5: for any solver honouring the spec contract (a returned
assignment satisfies every registered constraint), a session whose HARD
constraints pin the same variable to two different exact values reports
`Infeasible`, and the orchestrator then leaves every attribute map
exactly as it was (all-or-nothing application). -/
theorem infeasible_solve_mutates_nothing
    (solve : List LinearConstraint → (VarRef → ℚ) → Option (VarRef → ℚ))
    (hsound : ∀ cs init out, solve cs init = some out → satisfiesAll out cs)
    (cs : List LinearConstraint) (v : VarRef) (b1 b2 : ℚ)
    (hc1 : (⟨.HARD, b1, [⟨1, v⟩], []⟩ : LinearConstraint) ∈ cs)
    (hc2 : (⟨.HARD, b2, [⟨1, v⟩], []⟩ : LinearConstraint) ∈ cs)
    (hne : b1 ≠ b2) (init : VarRef → ℚ) (m : AttrMap) :
    solve cs init = none ∧ distributeResult m (solve cs init) = m := by
  have hnone : solve cs init = none := by
    cases hres : solve cs init with
    | none => rfl
    | some out =>
        have hall := hsound cs init out hres
        have e1 := hall _ hc1
        have e2 := hall _ hc2
        simp only [satisfiesC, termSum, List.map_cons, List.map_nil,
          List.sum_cons, List.sum_nil] at e1 e2
        exact absurd (by linarith : b1 = b2) hne
  exact ⟨hnone, by rw [hnone]; rfl⟩

/-- Witness for C5: a concrete contradictory session (`x1 = 0` and
`x1 = 5`) under a concrete sound solver. -/
theorem infeasible_solve_mutates_nothing_witness :
    (fun (_ : List LinearConstraint) (_ : VarRef → ℚ) =>
        (none : Option (VarRef → ℚ)))
      [⟨.HARD, 0, [⟨1, .glyphAttr "x1"⟩], []⟩,
       ⟨.HARD, 5, [⟨1, .glyphAttr "x1"⟩], []⟩] (fun _ => 0) = none ∧
    distributeResult (initializeState [])
      ((fun (_ : List LinearConstraint) (_ : VarRef → ℚ) =>
          (none : Option (VarRef → ℚ)))
        [⟨.HARD, 0, [⟨1, .glyphAttr "x1"⟩], []⟩,
         ⟨.HARD, 5, [⟨1, .glyphAttr "x1"⟩], []⟩] (fun _ => 0)) =
      initializeState [] := by
  exact infeasible_solve_mutates_nothing
    (fun _ _ => none) (fun cs init out h => by cases h)
    [⟨.HARD, 0, [⟨1, .glyphAttr "x1"⟩], []⟩,
     ⟨.HARD, 5, [⟨1, .glyphAttr "x1"⟩], []⟩]
    (.glyphAttr "x1") 0 5 (by simp) (by simp) (by norm_num)
    (fun _ => 0) (initializeState [])

theorem keysOf_nil : keysOf ([] : AttrMap) = [] := rfl

theorem keysOf_cons (k : String) (w : ℚ) (m : AttrMap) :
    keysOf ((k, w) :: m) = k :: keysOf m := rfl

theorem mem_keysOf_setAttr (m : AttrMap) (n k : String) (v : ℚ) :
    k ∈ keysOf (setAttr m n v) ↔ k = n ∨ k ∈ keysOf m := by
  induction m with
  | nil => simp [setAttr, keysOf]
  | cons hd tl ih =>
      obtain ⟨k', w⟩ := hd
      by_cases hk : k' = n
      · subst hk
        rw [show setAttr ((k', w) :: tl) k' v = (k', v) :: tl from by
          simp [setAttr]]
        rw [keysOf_cons, keysOf_cons]
        simp only [List.mem_cons]
        tauto
      · rw [show setAttr ((k', w) :: tl) n v = (k', w) :: setAttr tl n v from by
          simp [setAttr, hk]]
        rw [keysOf_cons, keysOf_cons]
        simp only [List.mem_cons, ih]
        tauto

/-- Helper: the key set of a freshly initialized attribute map is
exactly the class schema. -/
theorem init_keys (k : String) :
    k ∈ keysOf (initializeState []) ↔ k ∈ attributeNames := by
  simp only [initializeState, mem_keysOf_setAttr, keysOf_nil,
    List.not_mem_nil, or_false, attributeNames, List.mem_cons]
  tauto

theorem mem_keysOf_foldl_setAttr (names : List String) (a : VarRef → ℚ)
    (m : AttrMap) (k : String) :
    k ∈ keysOf
        (names.foldl (fun acc n => setAttr acc n (a (.glyphAttr n))) m) ↔
      k ∈ names ∨ k ∈ keysOf m := by
  induction names generalizing m with
  | nil => simp
  | cons hd tl ih =>
      simp only [List.foldl_cons, ih, mem_keysOf_setAttr, List.mem_cons]
      tauto

/-- Claim C6: after initialization every schema attribute is present in
the instance's attribute map and the map holds nothing outside the
schema; subsequent operations (in-schema attribute writes, orchestrator
result distribution) preserve this. -/
theorem schema_completeness (m : AttrMap) (n : String) (v : ℚ)
    (a : VarRef → ℚ)
    (hm : ∀ k, k ∈ keysOf m ↔ k ∈ attributeNames)
    (hn : n ∈ attributeNames) :
    (∀ k, k ∈ keysOf (initializeState []) ↔ k ∈ attributeNames) ∧
    (∀ k, k ∈ keysOf (setAttr m n v) ↔ k ∈ attributeNames) ∧
    (∀ k, k ∈ keysOf (distributeResult m (some a)) ↔ k ∈ attributeNames) := by
  refine ⟨init_keys, ?_, ?_⟩
  · intro k
    rw [mem_keysOf_setAttr]
    constructor
    · rintro (rfl | h)
      · exact hn
      · exact (hm k).mp h
    · intro h
      exact Or.inr ((hm k).mpr h)
  · intro k
    show k ∈ keysOf (attributeNames.foldl
      (fun acc n => setAttr acc n (a (.glyphAttr n))) m) ↔ _
    rw [mem_keysOf_foldl_setAttr]
    constructor
    · rintro (h | h)
      · exact h
      · exact (hm k).mp h
    · intro h
      exact Or.inl h

/-- Witness for C6 at a concrete initialized map. -/
theorem schema_completeness_witness :
    "x1" ∈ keysOf (setAttr (initializeState []) "x1" 7) ↔
      "x1" ∈ attributeNames := by
  exact (schema_completeness (initializeState []) "x1" 7 (fun _ => 0)
    init_keys (by simp [attributeNames])).2.1 "x1"

/-- Modelled from the spec: a typed attribute value — the attribute-map
contract distinguishes numeric from non-numeric kinds. -/
inductive AValue where
  | num (v : ℚ)
  | str (s : String)
  deriving DecidableEq, Repr

/-- The kind tag of a typed value. -/
def AValue.kind : AValue → String
  | .num _ => "number"
  | .str _ => "string"

/-- Modelled from the spec: the attribute-map error taxonomy
(`UnknownAttribute` for schema misses; `TypeMismatch` instead of any
implicit numeric/non-numeric coercion). -/
inductive AttrError where
  | UnknownAttribute
  | TypeMismatch
  deriving DecidableEq, Repr

/-- A typed attribute map. -/
abbrev TypedAttrMap := List (String × AValue)

def lookupT : TypedAttrMap → String → Option AValue
  | [], _ => none
  | (k, w) :: rest, n => if k = n then some w else lookupT rest n

def setT : TypedAttrMap → String → AValue → TypedAttrMap
  | [], n, v => [(n, v)]
  | (k, w) :: rest, n, v =>
      if k = n then (n, v) :: rest else (k, w) :: setT rest n v

theorem lookupT_setT (m : TypedAttrMap) (k n : String) (v : AValue) :
    lookupT (setT m k v) n = if k = n then some v else lookupT m n := by
  induction m with
  | nil => simp [setT, lookupT]
  | cons hd tl ih =>
      obtain ⟨k', w⟩ := hd
      by_cases hk : k' = k
      · subst hk
        by_cases hn : k' = n <;> simp [setT, lookupT, hn]
      · by_cases hn : k' = n
        · subst hn
          have hkn : ¬k = k' := fun h => hk h.symm
          simp [setT, lookupT, hk, hkn]
        · simp [setT, lookupT, hk, hn, ih]

/-- The declared type of a schema attribute, read off the source's
`attributes` descriptions. -/
def schemaType (n : String) : Option String :=
  (attributes.find? fun d => d.name == n).map AttributeDescription.type

/-- Modelled from the spec: `get(name)` fails with `UnknownAttribute`
when `name` is not in the owning class's schema, and otherwise returns
the stored value unchanged. -/
def amGet (m : TypedAttrMap) (n : String) : Except AttrError AValue :=
  match schemaType n with
  | none => .error .UnknownAttribute
  | some _ =>
      match lookupT m n with
      | some v => .ok v
      | none => .error .UnknownAttribute

/-- Modelled from the spec: `set(name, value)` fails with
`UnknownAttribute` outside the schema, and performs no implicit coercion
between numeric and non-numeric kinds (a kind mismatch is an error, not
a conversion). -/
def amSet (m : TypedAttrMap) (n : String) (v : AValue) :
    Except AttrError TypedAttrMap :=
  match schemaType n with
  | none => .error .UnknownAttribute
  | some t => if v.kind = t then .ok (setT m n v) else .error .TypeMismatch

theorem schemaType_of_mem {n : String} (hn : n ∈ attributeNames) :
    schemaType n = some "number" := by
  simp only [attributeNames, List.mem_cons, List.not_mem_nil,
    or_false] at hn
  rcases hn with rfl | rfl | rfl | rfl | rfl | rfl | rfl | rfl | rfl |
    rfl | rfl | rfl | rfl | rfl <;> rfl

theorem schemaType_of_not_mem {n : String} (hn : n ∉ attributeNames) :
    schemaType n = none := by
  cases hfind : attributes.find? (fun d => d.name == n) with
  | none => simp [schemaType, hfind]
  | some d =>
      exfalso
      have hd : d ∈ attributes := List.mem_of_find?_eq_some hfind
      have hp := List.find?_some hfind
      have hdn : d.name = n := by simpa using hp
      apply hn
      rw [← hdn]
      simp only [attributes, List.mem_cons, List.not_mem_nil,
        or_false] at hd
      rcases hd with rfl | rfl | rfl | rfl | rfl | rfl | rfl | rfl | rfl |
        rfl | rfl | rfl | rfl | rfl <;> simp [attributeNames]

/-- Claim C9: `get` and `set` fail with `UnknownAttribute` exactly for
names outside the owning class's schema; for schema names they succeed
(`get` returning the stored value, `set` storing the given value so a
later `get` returns it verbatim), and a numeric/non-numeric kind
mismatch is rejected rather than coerced. -/
theorem attribute_map_contract (m : TypedAttrMap) (n : String)
    (v : AValue) :
    (n ∉ attributeNames →
      amGet m n = .error .UnknownAttribute ∧
      amSet m n v = .error .UnknownAttribute) ∧
    (n ∈ attributeNames →
      (∀ w, lookupT m n = some w → amGet m n = .ok w) ∧
      (v.kind = "number" →
        amSet m n v = .ok (setT m n v) ∧
        amGet (setT m n v) n = .ok v) ∧
      (v.kind ≠ "number" → amSet m n v = .error .TypeMismatch)) := by
  constructor
  · intro hn
    have h := schemaType_of_not_mem hn
    constructor
    · simp [amGet, h]
    · simp [amSet, h]
  · intro hn
    have h := schemaType_of_mem hn
    refine ⟨?_, ?_, ?_⟩
    · intro w hw
      simp [amGet, h, hw]
    · intro hv
      constructor
      · simp [amSet, h, hv]
      · simp [amGet, h, lookupT_setT]
    · intro hv
      simp [amSet, h, hv]

/-- Witness for C9: the contract at concrete maps, names and values. -/
theorem attribute_map_contract_witness :
    amGet ([] : TypedAttrMap) "nope" = .error .UnknownAttribute ∧
    amSet [("x1", AValue.num 0)] "x1" (AValue.str "oops") =
      .error .TypeMismatch ∧
    amSet [("x1", AValue.num 0)] "x1" (AValue.num 7) =
      .ok [("x1", AValue.num 7)] := by
  refine ⟨(attribute_map_contract [] "nope" (.num 0)).1
      (by simp [attributeNames]) |>.1, ?_, ?_⟩
  · exact ((attribute_map_contract [("x1", AValue.num 0)] "x1"
      (.str "oops")).2 (by simp [attributeNames])).2.2 (by simp [AValue.kind])
  · have h := ((attribute_map_contract [("x1", AValue.num 0)] "x1"
      (.num 7)).2 (by simp [attributeNames])).2.1 rfl
    rw [h.1]
    rfl

end Charticulator
